import Mathlib

/-!
Verification development for the TNEF ("winmail.dat") decoding engine of the
openedfile-com repository.  The definitions below are a shallow embedding of
the TypeScript sources `src/lib/tnef-parser/decoder.ts` (byte cursor, string
decoding helpers, `pad4`) and `src/lib/tnef-parser/parser.ts` (`parseTnef`,
`parseMapiProps`, `parseAttachMapiProps`, `skipNamedPropHeader`,
`readPropValue`, `guessMimeType`, `codepageToEncoding`).

Modelling conventions:
* a byte buffer (JS `Uint8Array`) is a `List Nat` of byte values;
* JS exceptions are `Except TnefError`; the two distinct `throw new Error`
  messages of the source become the two constructors of `TnefError`;
* JS bitwise operators work on 32-bit two's-complement integers, modelled by
  `toInt32` below; all other arithmetic is exact (`Nat`/`Int`);
* the platform `TextDecoder` is modelled by `textDecode`: the
  `windows-1252` single-byte table is embedded exactly (WHATWG mapping) and
  `utf-16le` is decoded exactly (surrogate pairs included); the remaining
  legacy multi-byte codecs (shift_jis, gbk, ...) and utf-8 agree with ASCII
  on bytes below 0x80 and are otherwise represented symbolically, tagged
  with the encoding name.  The only fact the development relies on for the
  symbolic part is that such a decode differs from the windows-1252 decode
  of the same non-ASCII bytes, which holds for the real codecs (for
  instance shift_jis decodes [0x83, 0x41] to the single katakana letter
  U+30A2 while windows-1252 yields the two characters U+0192, U+0041).
-/

namespace Tnef

/-- Byte buffers: JS `Uint8Array` contents as a list of byte values. -/
abbrev Bytes := List Nat

/-- Little-endian 16-bit value from two bytes. -/
def leU16 (b0 b1 : Nat) : Nat := b0 + 256 * b1

/-- Little-endian 32-bit value from four bytes. -/
def leU32 (b0 b1 b2 b3 : Nat) : Nat :=
  b0 + 256 * b1 + 65536 * b2 + 16777216 * b3

/-- Little-endian 16-bit read at index `i` of a buffer (out-of-range bytes
read as 0; all uses are guarded by length checks). -/
def leU16At (bs : Bytes) (i : Nat) : Nat :=
  leU16 (bs.getD i 0) (bs.getD (i + 1) 0)

/-- Little-endian 32-bit read at index `i` of a buffer.  This is the value
`new DataView(...).getUint32(i, true)` produces when `i + 4` bytes exist. -/
def leU32At (bs : Bytes) (i : Nat) : Nat :=
  leU32 (bs.getD i 0) (bs.getD (i + 1) 0) (bs.getD (i + 2) 0) (bs.getD (i + 3) 0)

/-- JS `ToInt32`: reduce an integer into the two's-complement range
`[-2^31, 2^31)`.  JS bitwise operators apply this coercion to their
operands and produce results in this range. -/
def toInt32 (z : Int) : Int := (z + 2147483648) % 4294967296 - 2147483648

/-- Source `pad4` (decoder.ts): `(n + 3) & ~3`.  Clearing the two low bits
of a 32-bit two's-complement value rounds it down to a multiple of 4,
i.e. `x & ~3 = x - x % 4` with the Euclidean remainder.  The function is
faithful to the JS 32-bit wrap-around: for arguments at or above
`2^31 - 2` the intermediate `n + 3` wraps and the result is negative. -/
def pad4 (n : Int) : Int :=
  let x := toInt32 (n + 3)
  x - x % 4

/-- Errors thrown by the decoding engine.  `unexpectedEnd` is the cursor's
`'Unexpected end of data'`; `notValidTnef` is the distinct
`'Not a valid TNEF (winmail.dat) file'` signature-mismatch error. -/
inductive TnefError where
  | unexpectedEnd
  | notValidTnef
deriving DecidableEq, Repr

/-- Byte cursor (`class TnefDecoder` in decoder.ts): a buffer plus the
current read offset. -/
structure TnefDecoder where
  data : Bytes
  pos : Nat
deriving DecidableEq, Repr

namespace TnefDecoder

/-- Getter `remaining` of the source: `data.length - pos`, as an integer
(the source value is a JS number and the loop conditions compare it with
signed thresholds). -/
def remaining (d : TnefDecoder) : Int := (d.data.length : Int) - (d.pos : Int)

/-- Source `readUint8`: fails when no byte remains, otherwise returns the
byte at `pos` and advances by one. -/
def readUint8 (d : TnefDecoder) : Except TnefError (Nat × TnefDecoder) :=
  if d.data.length ≤ d.pos then .error .unexpectedEnd
  else .ok (d.data.getD d.pos 0, ⟨d.data, d.pos + 1⟩)

/-- Source `readUint16LE`: fails when `pos + 2` exceeds the buffer length,
otherwise reads two bytes little-endian. -/
def readUint16LE (d : TnefDecoder) : Except TnefError (Nat × TnefDecoder) :=
  if d.data.length < d.pos + 2 then .error .unexpectedEnd
  else .ok (leU16At d.data d.pos, ⟨d.data, d.pos + 2⟩)

/-- Source `readUint32LE`: fails when `pos + 4` exceeds the buffer length,
otherwise reads four bytes little-endian. -/
def readUint32LE (d : TnefDecoder) : Except TnefError (Nat × TnefDecoder) :=
  if d.data.length < d.pos + 4 then .error .unexpectedEnd
  else .ok (leU32At d.data d.pos, ⟨d.data, d.pos + 4⟩)

/-- Source `readBytes`: fails when `pos + length` exceeds the buffer
length, otherwise returns a copy of the next `length` bytes. -/
def readBytes (d : TnefDecoder) (length : Nat) : Except TnefError (Bytes × TnefDecoder) :=
  if d.data.length < d.pos + length then .error .unexpectedEnd
  else .ok ((d.data.drop d.pos).take length, ⟨d.data, d.pos + length⟩)

/-- Source `skip`: advances the offset and clamps it to the buffer end;
never fails.  (The JS parameter is a number; every reachable call site
passes a non-negative value, see the note at `readPropValue`.) -/
def skip (d : TnefDecoder) (length : Nat) : TnefDecoder :=
  ⟨d.data, min (d.pos + length) d.data.length⟩

end TnefDecoder

/-- WHATWG windows-1252 single-byte mapping.  Bytes below 0x80 and from
0xA0 up coincide with the Unicode code point of the byte value; the range
0x80–0x9F has the dedicated table below. -/
def w1252Char (b : Nat) : Char :=
  match b with
  | 0x80 => Char.ofNat 0x20AC
  | 0x82 => Char.ofNat 0x201A
  | 0x83 => Char.ofNat 0x0192
  | 0x84 => Char.ofNat 0x201E
  | 0x85 => Char.ofNat 0x2026
  | 0x86 => Char.ofNat 0x2020
  | 0x87 => Char.ofNat 0x2021
  | 0x88 => Char.ofNat 0x02C6
  | 0x89 => Char.ofNat 0x2030
  | 0x8A => Char.ofNat 0x0160
  | 0x8B => Char.ofNat 0x2039
  | 0x8C => Char.ofNat 0x0152
  | 0x8E => Char.ofNat 0x017D
  | 0x91 => Char.ofNat 0x2018
  | 0x92 => Char.ofNat 0x2019
  | 0x93 => Char.ofNat 0x201C
  | 0x94 => Char.ofNat 0x201D
  | 0x95 => Char.ofNat 0x2022
  | 0x96 => Char.ofNat 0x2013
  | 0x97 => Char.ofNat 0x2014
  | 0x98 => Char.ofNat 0x02DC
  | 0x99 => Char.ofNat 0x2122
  | 0x9A => Char.ofNat 0x0161
  | 0x9B => Char.ofNat 0x203A
  | 0x9C => Char.ofNat 0x0153
  | 0x9E => Char.ofNat 0x017E
  | 0x9F => Char.ofNat 0x0178
  | _ => Char.ofNat b

/-- Group a UTF-16LE byte stream into 16-bit code units.  A dangling odd
byte becomes a replacement character, as the platform decoder emits. -/
def utf16Units : Bytes → List Nat
  | [] => []
  | [_] => [0xFFFD]
  | b0 :: b1 :: rest => leU16 b0 b1 :: utf16Units rest

/-- Decode a list of UTF-16 code units, combining surrogate pairs and
replacing unpaired surrogates with U+FFFD. -/
def utf16Chars : List Nat → List Char
  | [] => []
  | [u] => if u < 0xD800 ∨ 0xDFFF < u then [Char.ofNat u] else [Char.ofNat 0xFFFD]
  | u :: v :: rest =>
    if u < 0xD800 ∨ 0xDFFF < u then Char.ofNat u :: utf16Chars (v :: rest)
    else if u < 0xDC00 then
      if 0xDC00 ≤ v ∧ v ≤ 0xDFFF then
        Char.ofNat (0x10000 + (u - 0xD800) * 0x400 + (v - 0xDC00)) :: utf16Chars rest
      else Char.ofNat 0xFFFD :: utf16Chars (v :: rest)
    else Char.ofNat 0xFFFD :: utf16Chars (v :: rest)

/-- Model of the platform `TextDecoder` (see the module comment):
windows-1252 and utf-16le are decoded exactly; every other encoding in
play agrees with ASCII on bytes below 0x80 and is otherwise represented
symbolically, tagged with the encoding name. -/
def textDecode (enc : String) (bytes : Bytes) : String :=
  if enc = "utf-16le" then String.mk (utf16Chars (utf16Units bytes))
  else if enc = "windows-1252" then String.mk (bytes.map w1252Char)
  else if bytes.all (· < 0x80) then String.mk (bytes.map Char.ofNat)
  else String.mk (Char.ofNat 0xFFFD :: (enc.data ++ bytes.map Char.ofNat))

/-- Truncation at the first NUL byte: the source computes
`bytes.indexOf(0)` (or the whole slice when absent) and decodes the bytes
before it, which is exactly the longest prefix of non-zero bytes. -/
def truncAtNul (bytes : Bytes) : Bytes := bytes.takeWhile (· ≠ 0)

namespace TnefDecoder

/-- Source `decodeAnsiString` (decoder.ts): truncates at the first NUL and
decodes with a `TextDecoder('windows-1252')`.  Its declared signature
takes only the byte slice; the parser's call sites pass the resolved
`ansiEncoding` as a second argument, which the method therefore ignores
at runtime.  The method does not touch the cursor state, so it is
embedded as a plain function. -/
def decodeAnsiString (bytes : Bytes) : String :=
  textDecode "windows-1252" (truncAtNul bytes)

/-- Source `decodeUnicodeString` (decoder.ts): strips one trailing 2-byte
NUL pair when present, then decodes as UTF-16LE. -/
def decodeUnicodeString (bytes : Bytes) : String :=
  let len :=
    if 2 ≤ bytes.length ∧ bytes.getD (bytes.length - 1) 0 = 0 ∧
        bytes.getD (bytes.length - 2) 0 = 0 then
      bytes.length - 2
    else bytes.length
  textDecode "utf-16le" (bytes.take len)

end TnefDecoder

/-- TNEF signature constant (types.ts). -/
def TNEF_SIGNATURE : Nat := 0x223e9f78

/-- Message-level indicator byte (types.ts `LVL_MESSAGE`). -/
def LVL_MESSAGE : Nat := 0x01

/-- Attachment-level indicator byte (types.ts `LVL_ATTACHMENT`). -/
def LVL_ATTACHMENT : Nat := 0x02

namespace ATTR

/-- Message attribute id `attFrom`. -/
def FROM : Nat := 0x8000

/-- Message attribute id `attSubject`. -/
def SUBJECT : Nat := 0x8004

/-- Message attribute id `attDateSent`. -/
def DATE_SENT : Nat := 0x8005

/-- Message attribute id `attBody`. -/
def BODY : Nat := 0x800c

/-- Message attribute id `attMAPIProps`. -/
def MAPI_PROPS : Nat := 0x9003

/-- Message attribute id `attRecipTable`. -/
def RECIP_TABLE : Nat := 0x9006

/-- Message attribute id `attOemCodepage`. -/
def OEM_CODEPAGE : Nat := 0x9007

end ATTR

namespace ATTACH_ATTR

/-- Attachment attribute id `attAttachRenddata`. -/
def REND_DATA : Nat := 0x9002

/-- Attachment attribute id `attAttachData`. -/
def DATA : Nat := 0x800f

/-- Attachment attribute id `attAttachTitle`. -/
def TITLE : Nat := 0x8010

/-- Attachment attribute id `attAttachMetaFile`. -/
def META_FILE : Nat := 0x8011

/-- Attachment attribute id `attAttachCreateDate`. -/
def CREATE_DATE : Nat := 0x8012

/-- Attachment attribute id `attAttachModifyDate`. -/
def MODIFY_DATE : Nat := 0x8013

/-- Attachment attribute id `attAttachment` (MAPI props). -/
def MAPI_PROPS : Nat := 0x9005

end ATTACH_ATTR

namespace PT

/-- MAPI property type `PT_SHORT`. -/
def SHORT : Nat := 0x0002

/-- MAPI property type `PT_LONG`. -/
def LONG : Nat := 0x0003

/-- MAPI property type `PT_BOOLEAN`. -/
def BOOLEAN : Nat := 0x000b

/-- MAPI property type `PT_STRING8`. -/
def STRING8 : Nat := 0x001e

/-- MAPI property type `PT_UNICODE`. -/
def UNICODE : Nat := 0x001f

/-- MAPI property type `PT_SYSTIME`. -/
def SYSTIME : Nat := 0x0040

/-- MAPI property type `PT_BINARY`. -/
def BINARY : Nat := 0x0102

/-- MAPI property type `PT_MV_STRING8`. -/
def MV_STRING8 : Nat := 0x101e

/-- MAPI property type `PT_MV_UNICODE`. -/
def MV_UNICODE : Nat := 0x101f

/-- MAPI property type `PT_MV_BINARY`. -/
def MV_BINARY : Nat := 0x1102

end PT

namespace PROP

/-- MAPI property id `PidTagSubject`. -/
def SUBJECT : Nat := 0x0037

/-- MAPI property id `PidTagSenderName`. -/
def SENDER_NAME : Nat := 0x0c1a

/-- MAPI property id `PidTagSenderEmailAddress`. -/
def SENDER_EMAIL : Nat := 0x0c1f

/-- MAPI property id `PidTagSentRepresentingName`. -/
def SENT_REPR_NAME : Nat := 0x0042

/-- MAPI property id `PidTagSentRepresentingEmailAddress`. -/
def SENT_REPR_EMAIL : Nat := 0x0065

/-- MAPI property id `PidTagBody`. -/
def BODY : Nat := 0x1000

/-- MAPI property id `PidTagBodyHtml`. -/
def BODY_HTML : Nat := 0x1013

/-- MAPI property id `PidTagDisplayName`. -/
def DISPLAY_NAME : Nat := 0x3001

/-- MAPI property id `PidTagAttachDataBinary`. -/
def ATTACH_DATA_BIN : Nat := 0x3701

/-- MAPI property id `PidTagAttachFilename`. -/
def ATTACH_FILENAME : Nat := 0x3704

/-- MAPI property id `PidTagAttachLongFilename`. -/
def ATTACH_LONG_FILENAME : Nat := 0x3707

/-- MAPI property id `PidTagAttachExtension`. -/
def ATTACH_EXTENSION : Nat := 0x3703

/-- MAPI property id `PidTagAttachMimeTag`. -/
def ATTACH_MIME_TAG : Nat := 0x370e

/-- MAPI property id `PidTagAttachSize`. -/
def ATTACH_SIZE : Nat := 0x0e20

end PROP

/-- Source `codepageToEncoding` (parser.ts): fixed codepage table with
Shift_JIS as the default for unknown codepages. -/
def codepageToEncoding (cp : Nat) : String :=
  match cp with
  | 932 => "shift_jis"
  | 936 => "gbk"
  | 949 => "euc-kr"
  | 950 => "big5"
  | 1250 => "windows-1250"
  | 1251 => "windows-1251"
  | 1252 => "windows-1252"
  | 1253 => "windows-1253"
  | 1254 => "windows-1254"
  | 1255 => "windows-1255"
  | 1256 => "windows-1256"
  | 1257 => "windows-1257"
  | 1258 => "windows-1258"
  | 65001 => "utf-8"
  | _ => "shift_jis"

/-- Decoded MAPI property value (`string | number | Uint8Array` in the
source's `readPropValue` return type; the `null` case is `Option.none` at
the call sites). -/
inductive PropVal where
  | num (n : Nat)
  | str (s : String)
  | bin (b : Bytes)
deriving DecidableEq, Repr

/-- Result record of `parseMapiProps` (source `MapiResult`): fields start
out absent (JS `undefined`) and become `some` when assigned. -/
structure MapiResult where
  subject : Option String := none
  senderName : Option String := none
  senderEmail : Option String := none
  body : Option String := none
  bodyHtml : Option String := none
deriving DecidableEq, Repr

/-- Result record of `parseAttachMapiProps` (source `AttachMapiResult`). -/
structure AttachMapiResult where
  filename : Option String := none
  longFilename : Option String := none
  displayName : Option String := none
  mimeType : Option String := none
  extension : Option String := none
  data : Option Bytes := none
deriving DecidableEq, Repr

/-- JS truthiness of an optional string: `undefined` and the empty string
are falsy, every other string is truthy. -/
def strTruthy : Option String → Bool
  | none => false
  | some s => s ≠ ""

/-- The skip loop of the multi-value / unexpected-count paths of
`readPropValue`: `count` times, read a 4-byte length and skip its padded
size.  A failing length read raises in the source; the exception is caught
by `readPropValue`'s own handler, which returns `null`, and the decoder
state after a `null` is never consumed (the enclosing property loop breaks
immediately), so the embedding simply stops at the failure point.
`pad4` can be negative for lengths at or above `2^31 - 2` (the JS cursor
would then move backwards before the block is abandoned); since the state
is discarded either way, the embedding clamps the skip at zero. -/
def skipBlocks : Nat → TnefDecoder → TnefDecoder
  | 0, d => d
  | n + 1, d =>
    match d.readUint32LE with
    | .error _ => d
    | .ok (len, d1) => skipBlocks n (d1.skip (pad4 (len : Int)).toNat)

/-- Source `skipNamedPropHeader`: skip the 16-byte GUID, read the 4-byte
kind; kind 0 (named by id) skips 4 further bytes, otherwise (named by
string) a 4-byte name length is read and `pad4(length)` bytes are
skipped.  Read failures propagate as exceptions to the enclosing property
block's catch. -/
def skipNamedPropHeader (d : TnefDecoder) : Except TnefError TnefDecoder :=
  let d0 := d.skip 16
  match d0.readUint32LE with
  | .error e => .error e
  | .ok (kind, d1) =>
    if kind = 0 then .ok (d1.skip 4)
    else
      match d1.readUint32LE with
      | .error e => .error e
      | .ok (nameLen, d2) => .ok (d2.skip (pad4 (nameLen : Int)).toNat)

/-- Source `readPropValue`: decode one typed MAPI property value.  The
whole body is wrapped in `try/catch` returning `null`, so every internal
read failure yields `none`; the decoder state returned alongside a `none`
is never consumed by the callers (they break out of the property loop), so
the failure branches return the state at the failure point.  The
`ansiEncoding` parameter is received, but the STRING8 branch hands it to
`decodeAnsiString`, whose declared signature ignores it (see there). -/
def readPropValue (d : TnefDecoder) (propType : Nat) (ansiEncoding : String) :
    Option PropVal × TnefDecoder :=
  if propType = PT.SHORT then
    match d.readUint16LE with
    | .error _ => (none, d)
    | .ok (val, d1) => (some (.num val), d1.skip 2)
  else if propType = PT.LONG ∨ propType = PT.BOOLEAN then
    match d.readUint32LE with
    | .error _ => (none, d)
    | .ok (val, d1) => (some (.num val), d1)
  else if propType = PT.SYSTIME then
    (some (.num 0), d.skip 8)
  else if propType = PT.STRING8 then
    match d.readUint32LE with
    | .error _ => (none, d)
    | .ok (count, d1) =>
      if count ≠ 1 then (none, skipBlocks count d1)
      else
        match d1.readUint32LE with
        | .error _ => (none, d1)
        | .ok (len, d2) =>
          match d2.readBytes len with
          | .error _ => (none, d2)
          | .ok (bytes, d3) =>
            (some (.str (TnefDecoder.decodeAnsiString bytes)),
             d3.skip (pad4 (len : Int) - (len : Int)).toNat)
  else if propType = PT.UNICODE then
    match d.readUint32LE with
    | .error _ => (none, d)
    | .ok (count, d1) =>
      if count ≠ 1 then (none, skipBlocks count d1)
      else
        match d1.readUint32LE with
        | .error _ => (none, d1)
        | .ok (len, d2) =>
          match d2.readBytes len with
          | .error _ => (none, d2)
          | .ok (bytes, d3) =>
            (some (.str (TnefDecoder.decodeUnicodeString bytes)),
             d3.skip (pad4 (len : Int) - (len : Int)).toNat)
  else if propType = PT.BINARY then
    match d.readUint32LE with
    | .error _ => (none, d)
    | .ok (count, d1) =>
      if count ≠ 1 then (none, skipBlocks count d1)
      else
        match d1.readUint32LE with
        | .error _ => (none, d1)
        | .ok (len, d2) =>
          match d2.readBytes len with
          | .error _ => (none, d2)
          | .ok (bytes, d3) =>
            (some (.bin bytes), d3.skip (pad4 (len : Int) - (len : Int)).toNat)
  else if propType = PT.MV_STRING8 ∨ propType = PT.MV_UNICODE ∨ propType = PT.MV_BINARY then
    match d.readUint32LE with
    | .error _ => (none, d)
    | .ok (count, d1) => (none, skipBlocks count d1)
  else
    if (4 : Int) ≤ d.remaining then (none, d.skip 4) else (none, d)

/-- Message-field routing of `parseMapiProps` (the `switch (propId)` over
decoded values): subject and body are overwritten unconditionally, sender
name and email only while the current value is falsy (first non-empty
wins), BODY_HTML takes binary payloads through a UTF-8 decode. -/
def routeMessageProp (propId : Nat) (v : PropVal) (r : MapiResult) : MapiResult :=
  if propId = PROP.SUBJECT then
    match v with
    | .str s => { r with subject := some s }
    | _ => r
  else if propId = PROP.SENDER_NAME ∨ propId = PROP.SENT_REPR_NAME then
    match v with
    | .str s => if strTruthy r.senderName then r else { r with senderName := some s }
    | _ => r
  else if propId = PROP.SENDER_EMAIL ∨ propId = PROP.SENT_REPR_EMAIL then
    match v with
    | .str s => if strTruthy r.senderEmail then r else { r with senderEmail := some s }
    | _ => r
  else if propId = PROP.BODY then
    match v with
    | .str s => { r with body := some s }
    | _ => r
  else if propId = PROP.BODY_HTML then
    match v with
    | .bin b => { r with bodyHtml := some (textDecode "utf-8" b) }
    | .str s => { r with bodyHtml := some s }
    | _ => r
  else r

/-- Attachment-field routing of `parseAttachMapiProps`: every recognized
string property overwrites its slot unconditionally; ATTACH_DATA_BIN
stores a binary payload. -/
def routeAttachProp (propId : Nat) (v : PropVal) (r : AttachMapiResult) : AttachMapiResult :=
  if propId = PROP.ATTACH_FILENAME then
    match v with
    | .str s => { r with filename := some s }
    | _ => r
  else if propId = PROP.ATTACH_LONG_FILENAME then
    match v with
    | .str s => { r with longFilename := some s }
    | _ => r
  else if propId = PROP.DISPLAY_NAME then
    match v with
    | .str s => { r with displayName := some s }
    | _ => r
  else if propId = PROP.ATTACH_MIME_TAG then
    match v with
    | .str s => { r with mimeType := some s }
    | _ => r
  else if propId = PROP.ATTACH_EXTENSION then
    match v with
    | .str s => { r with extension := some s }
    | _ => r
  else if propId = PROP.ATTACH_DATA_BIN then
    match v with
    | .bin b => { r with data := some b }
    | _ => r
  else r

/-- Property loop of `parseMapiProps`: `for (i = 0; i < count && remaining
> 4; i++)`, reading the type tag and property id, skipping a named-property
header for ids at or above 0x8000, decoding the value and routing it.  The
first `Nat` argument is the number of iterations left (`count - i`).  A
read failure raises; the enclosing catch returns the result accumulated so
far, a `null` value breaks out of the loop with the same effect. -/
def mapiPropsLoop (ansiEncoding : String) : Nat → TnefDecoder → MapiResult → MapiResult
  | 0, _, r => r
  | n + 1, d, r =>
    if (4 : Int) < d.remaining then
      match d.readUint16LE with
      | .error _ => r
      | .ok (propType, d1) =>
        match d1.readUint16LE with
        | .error _ => r
        | .ok (propId, d2) =>
          match (if 0x8000 ≤ propId then skipNamedPropHeader d2 else .ok d2) with
          | .error _ => r
          | .ok d3 =>
            match readPropValue d3 propType ansiEncoding with
            | (none, _) => r
            | (some v, d4) => mapiPropsLoop ansiEncoding n d4 (routeMessageProp propId v r)
    else r

/-- Source `parseMapiProps`: read the 4-byte property count and run the
property loop; any exception is caught at this boundary, returning the
fields accumulated so far (a failing count read returns the empty
result). -/
def parseMapiProps (data : Bytes) (ansiEncoding : String) : MapiResult :=
  match (TnefDecoder.mk data 0).readUint32LE with
  | .error _ => {}
  | .ok (count, d) => mapiPropsLoop ansiEncoding count d {}

/-- Property loop of `parseAttachMapiProps`: identical control flow to
`mapiPropsLoop` with the attachment routing. -/
def attachMapiPropsLoop (ansiEncoding : String) :
    Nat → TnefDecoder → AttachMapiResult → AttachMapiResult
  | 0, _, r => r
  | n + 1, d, r =>
    if (4 : Int) < d.remaining then
      match d.readUint16LE with
      | .error _ => r
      | .ok (propType, d1) =>
        match d1.readUint16LE with
        | .error _ => r
        | .ok (propId, d2) =>
          match (if 0x8000 ≤ propId then skipNamedPropHeader d2 else .ok d2) with
          | .error _ => r
          | .ok d3 =>
            match readPropValue d3 propType ansiEncoding with
            | (none, _) => r
            | (some v, d4) => attachMapiPropsLoop ansiEncoding n d4 (routeAttachProp propId v r)
    else r

/-- Source `parseAttachMapiProps`: count read plus attachment property
loop, with the same catch-at-the-boundary behaviour as `parseMapiProps`. -/
def parseAttachMapiProps (data : Bytes) (ansiEncoding : String) : AttachMapiResult :=
  match (TnefDecoder.mk data 0).readUint32LE with
  | .error _ => {}
  | .ok (count, d) => attachMapiPropsLoop ansiEncoding count d {}

/-- Accumulator record for one attachment (source `RawAttachment`). -/
structure RawAttachment where
  legacyName : String := ""
  mapiFilename : String := ""
  mapiLongFilename : String := ""
  mapiDisplayName : String := ""
  data : Option Bytes := none
  mimeType : String := "application/octet-stream"
  extension : String := ""
  size : Nat := 0
deriving DecidableEq, Repr

/-- Final attachment record (types.ts `TnefAttachment`). -/
structure TnefAttachment where
  name : String
  size : Nat
  data : Bytes
  mimeType : String
deriving DecidableEq, Repr

/-- Final parse result (types.ts `TnefParseResult`).  The source field
`from` is a Lean keyword and is embedded as `fromField`. -/
structure TnefParseResult where
  subject : String
  fromField : String
  body : String
  bodyHtml : String
  attachments : List TnefAttachment
deriving DecidableEq, Repr

/-- Mutable locals of one `parseTnef` invocation, threaded through the
attribute loop: the resolved ANSI encoding, the four message fields, the
flushed attachment accumulators and the currently open one. -/
structure ParseState where
  ansiEncoding : String := "shift_jis"
  subject : String := ""
  fromField : String := ""
  body : String := ""
  bodyHtml : String := ""
  attachments : List RawAttachment := []
  currentAttachment : Option RawAttachment := none
deriving DecidableEq, Repr

/-- JS `a || b` on strings: the empty string is falsy. -/
def jsOr (a b : String) : String := if a = "" then b else a

/-- Name resolution of the final attachment assembly:
`a.mapiLongFilename || a.mapiFilename || a.mapiDisplayName ||
a.legacyName || 'attachment'`. -/
def resolveName (a : RawAttachment) : String :=
  jsOr a.mapiLongFilename (jsOr a.mapiFilename (jsOr a.mapiDisplayName
    (jsOr a.legacyName "attachment")))

/-- JS `s.replace('.', '')`: removes the first occurrence of the dot. -/
def removeFirstDot : List Char → List Char
  | [] => []
  | c :: cs => if c = '.' then cs else c :: removeFirstDot cs

/-- JS `name.split('.')` on the character list: splits at every dot,
keeping empty segments (so the result is never the empty list and
`getLastD` below is JS `.pop()`). -/
def splitDot : List Char → List (List Char)
  | [] => [[]]
  | c :: cs =>
    if c = '.' then [] :: splitDot cs
    else
      match splitDot cs with
      | [] => [[c]]
      | g :: gs => (c :: g) :: gs

/-- JS `String.prototype.toLowerCase` restricted to its ASCII action
(`Char.toLower` lowers exactly the chars A–Z), which is all the inputs in
play use. -/
def toLowerAscii (s : String) : String := String.mk (s.data.map Char.toLower)

/-- Source `guessMimeType`: pick the explicit extension field when truthy,
otherwise the part of the name after the last dot (`split('.').pop()`),
lowercase it, drop a leading dot, and look the result up in the fixed
extension table, defaulting to the generic MIME type. -/
def guessMimeType (name ext : String) : String :=
  let raw := jsOr ext (jsOr (String.mk ((splitDot name.data).getLastD [])) "")
  let e := String.mk (removeFirstDot (toLowerAscii raw).data)
  let map : List (String × String) := [
    ("pdf", "application/pdf"),
    ("doc", "application/msword"),
    ("docx", "application/vnd.openxmlformats-officedocument.wordprocessingml.document"),
    ("xls", "application/vnd.ms-excel"),
    ("xlsx", "application/vnd.openxmlformats-officedocument.spreadsheetml.sheet"),
    ("ppt", "application/vnd.ms-powerpoint"),
    ("pptx", "application/vnd.openxmlformats-officedocument.presentationml.presentation"),
    ("jpg", "image/jpeg"),
    ("jpeg", "image/jpeg"),
    ("png", "image/png"),
    ("gif", "image/gif"),
    ("bmp", "image/bmp"),
    ("svg", "image/svg+xml"),
    ("txt", "text/plain"),
    ("html", "text/html"),
    ("htm", "text/html"),
    ("csv", "text/csv"),
    ("xml", "text/xml"),
    ("zip", "application/zip"),
    ("rar", "application/x-rar-compressed"),
    ("7z", "application/x-7z-compressed"),
    ("mp3", "audio/mpeg"),
    ("mp4", "video/mp4"),
    ("avi", "video/x-msvideo"),
    ("mov", "video/quicktime"),
    ("eml", "message/rfc822"),
    ("msg", "application/vnd.ms-outlook"),
    ("ics", "text/calendar"),
    ("vcf", "text/vcard")]
  (map.lookup e).getD "application/octet-stream"

/-- Attribute dispatch of the parse loop (the `if level / switch attrId`
body), acting on the threaded parse state.  Unrecognized level or id
combinations leave the state unchanged. -/
def dispatchAttr (level attrId : Nat) (attrData : Bytes) (s : ParseState) : ParseState :=
  if level = LVL_MESSAGE then
    if attrId = ATTR.OEM_CODEPAGE then
      if 4 ≤ attrData.length then
        { s with ansiEncoding := codepageToEncoding (leU32At attrData 0) }
      else s
    else if attrId = ATTR.SUBJECT then
      -- the source passes `ansiEncoding` as a second argument here; the
      -- declared signature of `decodeAnsiString` ignores it at runtime
      { s with subject := TnefDecoder.decodeAnsiString attrData }
    else if attrId = ATTR.FROM then
      if 8 ≤ attrData.length then
        { s with fromField := TnefDecoder.decodeAnsiString (attrData.drop 8) }
      else s
    else if attrId = ATTR.BODY then
      { s with body := TnefDecoder.decodeAnsiString attrData }
    else if attrId = ATTR.MAPI_PROPS then
      let parsed := parseMapiProps attrData s.ansiEncoding
      let s1 := if strTruthy parsed.subject then { s with subject := parsed.subject.getD "" } else s
      let s2 :=
        if strTruthy parsed.senderName then { s1 with fromField := parsed.senderName.getD "" }
        else s1
      let s3 :=
        if strTruthy parsed.senderEmail then
          { s2 with fromField :=
              if s2.fromField ≠ "" then
                s2.fromField ++ " <" ++ parsed.senderEmail.getD "" ++ ">"
              else parsed.senderEmail.getD "" }
        else s2
      let s4 := if strTruthy parsed.body then { s3 with body := parsed.body.getD "" } else s3
      if strTruthy parsed.bodyHtml then { s4 with bodyHtml := parsed.bodyHtml.getD "" } else s4
    else s
  else if level = LVL_ATTACHMENT then
    if attrId = ATTACH_ATTR.REND_DATA then
      { s with
        attachments :=
          (match s.currentAttachment with
          | some a => s.attachments ++ [a]
          | none => s.attachments),
        currentAttachment := some ({} : RawAttachment) }
    else if attrId = ATTACH_ATTR.TITLE then
      match s.currentAttachment with
      | some a =>
        let a1 := { a with legacyName := TnefDecoder.decodeAnsiString attrData }
        { s with currentAttachment := some a1 }
      | none => s
    else if attrId = ATTACH_ATTR.DATA then
      match s.currentAttachment with
      | some a =>
        let a1 := { a with data := some attrData, size := attrData.length }
        { s with currentAttachment := some a1 }
      | none => s
    else if attrId = ATTACH_ATTR.MAPI_PROPS then
      match s.currentAttachment with
      | some a =>
        let parsed := parseAttachMapiProps attrData s.ansiEncoding
        let a1 :=
          if strTruthy parsed.longFilename then
            { a with mapiLongFilename := parsed.longFilename.getD "" }
          else a
        let a2 :=
          if strTruthy parsed.filename then { a1 with mapiFilename := parsed.filename.getD "" }
          else a1
        let a3 :=
          if strTruthy parsed.displayName then
            { a2 with mapiDisplayName := parsed.displayName.getD "" }
          else a2
        let a4 :=
          if strTruthy parsed.mimeType then { a3 with mimeType := parsed.mimeType.getD "" }
          else a3
        let a5 :=
          if strTruthy parsed.extension then { a4 with extension := parsed.extension.getD "" }
          else a4
        -- `if (parsed.data)`: any Uint8Array object, even empty, is truthy
        let a6 :=
          match parsed.data with
          | some bs => { a5 with data := some bs, size := bs.length }
          | none => a5
        { s with currentAttachment := some a6 }
      | none => s
    else s
  else s

/-- Attribute-stream loop of `parseTnef`: `while (remaining > 0)`, break
when fewer than 9 bytes remain, read the 1-byte level, the 4-byte type/id
word (low 16 bits are the attribute id), and the 4-byte declared length;
break when the declared length exceeds the remaining bytes; otherwise read
the payload, consume a 2-byte checksum when at least 2 bytes remain, and
dispatch.  The first argument is recursion fuel; each iteration consumes
at least 9 bytes, so the `data.length + 1` fuel that `parseTnef` passes is
never exhausted. -/
def parseLoop : Nat → TnefDecoder → ParseState → Except TnefError ParseState
  | 0, _, s => .ok s
  | fuel + 1, d, s =>
    if (0 : Int) < d.remaining then
      if d.remaining < 9 then .ok s
      else
        match d.readUint8 with
        | .error e => .error e
        | .ok (level, d1) =>
          match d1.readUint32LE with
          | .error e => .error e
          | .ok (attrType, d2) =>
            -- low 16 bits of the type/id word (`attrType & 0xFFFF`)
            let attrId := attrType % 65536
            match d2.readUint32LE with
            | .error e => .error e
            | .ok (attrLength, d3) =>
              if (attrLength : Int) > d3.remaining then .ok s
              else
                match d3.readBytes attrLength with
                | .error e => .error e
                | .ok (attrData, d4) =>
                  match (if (2 : Int) ≤ d4.remaining
                         then d4.readUint16LE.map (·.2) else .ok d4) with
                  | .error e => .error e
                  | .ok d5 => parseLoop fuel d5 (dispatchAttr level attrId attrData s)
    else .ok s

/-- Final attachment assembly step for one surviving accumulator: resolve
the name by priority, keep an explicit MIME type, otherwise infer one from
the resolved name and extension field. -/
def finalizeAttachment (a : RawAttachment) : TnefAttachment :=
  let name := resolveName a
  { name := name,
    size := a.size,
    data := a.data.getD [],
    mimeType :=
      if a.mimeType ≠ "application/octet-stream" then a.mimeType
      else guessMimeType name a.extension }

/-- Final attachment list: keep accumulators with a non-empty binary
payload (`a.data && a.data.length > 0`) and map the assembly step over
them. -/
def finalizeAttachments (l : List RawAttachment) : List TnefAttachment :=
  (l.filter (fun a => a.data.isSome ∧ 0 < (a.data.getD []).length)).map finalizeAttachment

/-- Source `parseTnef`: check the 4-byte little-endian signature (distinct
fatal error on mismatch), discard the 2-byte legacy key, run the attribute
loop from a default `shift_jis` ANSI encoding, flush a still-open
accumulator and assemble the final result. -/
def parseTnef (data : Bytes) : Except TnefError TnefParseResult :=
  match (TnefDecoder.mk data 0).readUint32LE with
  | .error e => .error e
  | .ok (signature, d1) =>
    if signature ≠ TNEF_SIGNATURE then .error .notValidTnef
    else
      match d1.readUint16LE with
      | .error e => .error e
      | .ok (_, d2) =>
        match parseLoop (data.length + 1) d2 {} with
        | .error e => .error e
        | .ok s =>
          let raw :=
            match s.currentAttachment with
            | some a => s.attachments ++ [a]
            | none => s.attachments
          .ok { subject := s.subject,
                fromField := s.fromField,
                body := s.body,
                bodyHtml := s.bodyHtml,
                attachments := finalizeAttachments raw }

/-- Modelled from the spec (§4.1), for comparison with the source:
"decodeAnsi(bytes, encoding) truncates at the first NUL byte (or end of
slice) and decodes the remainder using the currently active legacy
encoding."  The source's `decodeAnsiString` ignores its encoding argument
and always decodes windows-1252; this definition performs the decode the
spec describes. -/
def decodeAnsiSpec (bytes : Bytes) (encoding : String) : String :=
  textDecode encoding (truncAtNul bytes)

/-- Little-endian serialization of a 32-bit value, for building concrete
test buffers. -/
def u32le (n : Nat) : Bytes := [n % 256, n / 256 % 256, n / 65536 % 256, n / 16777216 % 256]

/-- Encode one attribute record of the stream layout:
level byte, 4-byte type/id word, 4-byte length, payload, 2-byte checksum. -/
def mkAttr (level id : Nat) (payload : Bytes) : Bytes :=
  [level] ++ u32le id ++ u32le payload.length ++ payload ++ [0, 0]

/-- Valid 4-byte signature followed by the 2-byte legacy key. -/
def sigKeyBytes : Bytes := u32le TNEF_SIGNATURE ++ [0, 0]

/-- MAPI property block holding a single PT_UNICODE subject property whose
value decodes to "Hello" (count 1, one value of 12 bytes, trailing NUL
pair). -/
def helloSubjectProp : Bytes :=
  u32le 1 ++ [0x1F, 0x00, 0x37, 0x00] ++ u32le 1 ++ u32le 12 ++
  [72, 0, 101, 0, 108, 0, 108, 0, 111, 0, 0, 0]

/-- Buffer with a legacy ANSI SUBJECT "Hi" followed by a MAPI_PROPS
attribute whose decoded subject property is "Hello". -/
def legacyThenMapiBuf : Bytes :=
  sigKeyBytes ++ mkAttr 1 ATTR.SUBJECT [72, 105, 0] ++ mkAttr 1 ATTR.MAPI_PROPS helloSubjectProp

/-- Buffer with the MAPI_PROPS subject "Hello" first and the legacy ANSI
SUBJECT "Hi" after it. -/
def mapiThenLegacyBuf : Bytes :=
  sigKeyBytes ++ mkAttr 1 ATTR.MAPI_PROPS helloSubjectProp ++ mkAttr 1 ATTR.SUBJECT [72, 105, 0]

/-- Buffer with only the MAPI_PROPS subject "Hello" attribute. -/
def mapiOnlyBuf : Bytes := sigKeyBytes ++ mkAttr 1 ATTR.MAPI_PROPS helloSubjectProp

/-- Buffer for the attachment scenario REND_DATA, TITLE="legacy.txt",
DATA=(5 bytes), REND_DATA, DATA=(3 bytes). -/
def twoAttachBuf : Bytes :=
  sigKeyBytes ++
  mkAttr 2 ATTACH_ATTR.REND_DATA [] ++
  mkAttr 2 ATTACH_ATTR.TITLE [108, 101, 103, 97, 99, 121, 46, 116, 120, 116, 0] ++
  mkAttr 2 ATTACH_ATTR.DATA [1, 2, 3, 4, 5] ++
  mkAttr 2 ATTACH_ATTR.REND_DATA [] ++
  mkAttr 2 ATTACH_ATTR.DATA [9, 9, 9]

/-- Attachment MAPI property block holding a single PT_UNICODE
ATTACH_LONG_FILENAME property decoding to "report.pdf" (22 value bytes
plus 2 bytes of 4-byte-alignment padding). -/
def reportPdfProp : Bytes :=
  u32le 1 ++ [0x1F, 0x00, 0x07, 0x37] ++ u32le 1 ++ u32le 22 ++
  [114, 0, 101, 0, 112, 0, 111, 0, 114, 0, 116, 0, 46, 0, 112, 0, 100, 0, 102, 0, 0, 0] ++
  [0, 0]

/-- Buffer with one attachment carrying the MAPI long filename
"report.pdf" and a 3-byte payload, no explicit MIME tag. -/
def reportPdfBuf : Bytes :=
  sigKeyBytes ++
  mkAttr 2 ATTACH_ATTR.REND_DATA [] ++
  mkAttr 2 ATTACH_ATTR.MAPI_PROPS reportPdfProp ++
  mkAttr 2 ATTACH_ATTR.DATA [1, 2, 3]

/-- Buffer with one attachment: REND_DATA then a 2-byte DATA payload. -/
def oneAttachBuf : Bytes :=
  sigKeyBytes ++ mkAttr 2 ATTACH_ATTR.REND_DATA [] ++ mkAttr 2 ATTACH_ATTR.DATA [1, 2]

/-- Buffer whose OEM-codepage attribute resolves the ANSI encoding to
shift_jis (codepage 932) followed by a legacy SUBJECT attribute whose
payload [0x83, 0x41] is the Shift_JIS encoding of the katakana letter ア. -/
def cp932SubjectBuf : Bytes :=
  sigKeyBytes ++ mkAttr 1 ATTR.OEM_CODEPAGE (u32le 932) ++ mkAttr 1 ATTR.SUBJECT [0x83, 0x41]

end Tnef

deriving instance DecidableEq for Except

namespace Tnef

/-- Size/data coupling on one accumulator: whenever the binary payload is
present, the size field equals its length. -/
def RAinv (a : RawAttachment) : Prop := ∀ bs, a.data = some bs → a.size = bs.length

/-- The coupling holds for every flushed accumulator and for the open one. -/
def stateInv (s : ParseState) : Prop :=
  (∀ a ∈ s.attachments, RAinv a) ∧ (∀ a, s.currentAttachment = some a → RAinv a)

/-- Successful byte read: with a byte available, `readUint8` returns it
and advances by one. -/
theorem readUint8_eq {d : TnefDecoder} (h : d.pos < d.data.length) :
    d.readUint8 = .ok (d.data.getD d.pos 0, ⟨d.data, d.pos + 1⟩) := by
  unfold TnefDecoder.readUint8
  rw [if_neg (by omega)]

/-- Successful 16-bit read. -/
theorem readUint16LE_eq {d : TnefDecoder} (h : d.pos + 2 ≤ d.data.length) :
    d.readUint16LE = .ok (leU16At d.data d.pos, ⟨d.data, d.pos + 2⟩) := by
  unfold TnefDecoder.readUint16LE
  rw [if_neg (by omega)]

/-- Failing 16-bit read. -/
theorem readUint16LE_err {d : TnefDecoder} (h : d.data.length < d.pos + 2) :
    d.readUint16LE = .error .unexpectedEnd := by
  unfold TnefDecoder.readUint16LE
  rw [if_pos h]

/-- Successful 32-bit read. -/
theorem readUint32LE_eq {d : TnefDecoder} (h : d.pos + 4 ≤ d.data.length) :
    d.readUint32LE = .ok (leU32At d.data d.pos, ⟨d.data, d.pos + 4⟩) := by
  unfold TnefDecoder.readUint32LE
  rw [if_neg (by omega)]

/-- Failing 32-bit read. -/
theorem readUint32LE_err {d : TnefDecoder} (h : d.data.length < d.pos + 4) :
    d.readUint32LE = .error .unexpectedEnd := by
  unfold TnefDecoder.readUint32LE
  rw [if_pos h]

/-- Successful slice read. -/
theorem readBytes_eq {d : TnefDecoder} {n : Nat} (h : d.pos + n ≤ d.data.length) :
    d.readBytes n = .ok ((d.data.drop d.pos).take n, ⟨d.data, d.pos + n⟩) := by
  unfold TnefDecoder.readBytes
  rw [if_neg (by omega)]

/-- The attribute loop returns the accumulated state unchanged as soon as
fewer than 9 bytes remain. -/
theorem parseLoop_break (fuel : Nat) (d : TnefDecoder) (s : ParseState)
    (h : d.remaining < 9) : parseLoop fuel d s = .ok s := by
  cases fuel with
  | zero => rfl
  | succ n =>
    simp only [parseLoop]
    by_cases h0 : (0 : Int) < d.remaining
    · rw [if_pos h0, if_pos h]
    · rw [if_neg h0]

/-- The attribute loop returns the accumulated state unchanged when the
declared payload length of the next attribute exceeds the bytes left after
its 9-byte header. -/
theorem parseLoop_truncate (fuel : Nat) (d : TnefDecoder) (s : ParseState)
    (h9 : ¬ d.remaining < 9)
    (hL : (leU32At d.data (d.pos + 5) : Int) > d.remaining - 9) :
    parseLoop (fuel + 1) d s = .ok s := by
  have hr : d.remaining = (d.data.length : Int) - (d.pos : Int) := rfl
  have hlen : d.pos + 9 ≤ d.data.length := by omega
  simp only [parseLoop]
  rw [if_pos (by omega), if_neg h9]
  rw [readUint8_eq (by omega)]
  dsimp only
  rw [readUint32LE_eq (d := ⟨d.data, d.pos + 1⟩) (show d.pos + 1 + 4 ≤ d.data.length by omega)]
  dsimp only
  rw [readUint32LE_eq (d := ⟨d.data, d.pos + 1 + 4⟩)
      (show d.pos + 1 + 4 + 4 ≤ d.data.length by omega)]
  dsimp only
  rw [if_pos]
  show (leU32At d.data (d.pos + 5) : Int) > (d.data.length : Int) - (d.pos + 1 + 4 + 4 : Nat)
  push_cast
  omega

/-- One full iteration of the attribute loop: with 9 header bytes and the
declared payload available, the loop reads exactly the declared number of
payload bytes, consumes a 2-byte checksum when at least 2 bytes remain,
dispatches the attribute and recurses. -/
theorem parseLoop_advance (fuel : Nat) (d : TnefDecoder) (s : ParseState)
    (h9 : ¬ d.remaining < 9)
    (hL : (leU32At d.data (d.pos + 5) : Int) ≤ d.remaining - 9) :
    parseLoop (fuel + 1) d s =
      parseLoop fuel
        ⟨d.data, d.pos + 9 + leU32At d.data (d.pos + 5) +
          (if (2 : Int) ≤ d.remaining - 9 - (leU32At d.data (d.pos + 5) : Int) then 2 else 0)⟩
        (dispatchAttr (d.data.getD d.pos 0) (leU32At d.data (d.pos + 1) % 65536)
          ((d.data.drop (d.pos + 9)).take (leU32At d.data (d.pos + 5))) s) := by
  have hr : d.remaining = (d.data.length : Int) - (d.pos : Int) := rfl
  have hlen : d.pos + 9 ≤ d.data.length := by omega
  have hLn : d.pos + 9 + leU32At d.data (d.pos + 5) ≤ d.data.length := by omega
  simp only [parseLoop]
  rw [if_pos (by omega), if_neg h9]
  rw [readUint8_eq (by omega)]
  dsimp only
  rw [readUint32LE_eq (d := ⟨d.data, d.pos + 1⟩) (show d.pos + 1 + 4 ≤ d.data.length by omega)]
  dsimp only
  rw [show d.pos + 1 + 4 = d.pos + 5 from rfl]
  rw [readUint32LE_eq (d := ⟨d.data, d.pos + 5⟩)
      (show d.pos + 5 + 4 ≤ d.data.length by omega)]
  dsimp only
  rw [show d.pos + 5 + 4 = d.pos + 9 from rfl]
  rw [if_neg (show ¬ ((leU32At d.data (d.pos + 5) : Int) >
        (⟨d.data, d.pos + 9⟩ : TnefDecoder).remaining) by
      show ¬ ((leU32At d.data (d.pos + 5) : Int) >
        (d.data.length : Int) - (d.pos + 9 : Nat))
      push_cast
      omega)]
  rw [readBytes_eq (d := ⟨d.data, d.pos + 9⟩) (show d.pos + 9 + leU32At d.data (d.pos + 5) ≤
      d.data.length from hLn)]
  dsimp only
  by_cases hc : (2 : Int) ≤ d.remaining - 9 - (leU32At d.data (d.pos + 5) : Int)
  · have hcr : (2 : Int) ≤ (⟨d.data, d.pos + 9 + leU32At d.data (d.pos + 5)⟩ :
        TnefDecoder).remaining := by
      show (2 : Int) ≤ (d.data.length : Int) -
        ((d.pos + 9 + leU32At d.data (d.pos + 5) : Nat) : Int)
      push_cast at hc ⊢
      omega
    rw [if_pos hcr, if_pos hc]
    rw [readUint16LE_eq (d := ⟨d.data, d.pos + 9 + leU32At d.data (d.pos + 5)⟩) (by
        show d.pos + 9 + leU32At d.data (d.pos + 5) + 2 ≤ d.data.length
        push_cast at hc
        omega)]
    dsimp only [Except.map]
  · have hcr : ¬ (2 : Int) ≤ (⟨d.data, d.pos + 9 + leU32At d.data (d.pos + 5)⟩ :
        TnefDecoder).remaining := by
      show ¬ (2 : Int) ≤ (d.data.length : Int) -
        ((d.pos + 9 + leU32At d.data (d.pos + 5) : Nat) : Int)
      push_cast at hc ⊢
      omega
    rw [if_neg hcr, if_neg hc]
    dsimp only
    rw [show d.pos + 9 + leU32At d.data (d.pos + 5) + 0 =
        d.pos + 9 + leU32At d.data (d.pos + 5) from rfl]

/-- The attribute loop never raises: every run returns some accumulated
state. -/
theorem parseLoop_ok (fuel : Nat) : ∀ (d : TnefDecoder) (s : ParseState),
    ∃ s', parseLoop fuel d s = .ok s' := by
  induction fuel with
  | zero => intro d s; exact ⟨s, rfl⟩
  | succ n ih =>
    intro d s
    by_cases h9 : d.remaining < 9
    · exact ⟨s, parseLoop_break _ _ _ h9⟩
    · by_cases hL : (leU32At d.data (d.pos + 5) : Int) > d.remaining - 9
      · exact ⟨s, parseLoop_truncate _ _ _ h9 hL⟩
      · rw [parseLoop_advance n d s h9 (by omega)]
        exact ih _ _

set_option maxHeartbeats 1000000 in
/-- Attribute dispatch preserves the size/data coupling: every branch that
stores a payload stores its length as the size in the same step. -/
theorem dispatchAttr_inv (level attrId : Nat) (pd : Bytes) (s : ParseState)
    (h : stateInv s) : stateInv (dispatchAttr level attrId pd s) := by
  have hca : ∀ t : ParseState, t.attachments = s.attachments →
      t.currentAttachment = s.currentAttachment → stateInv t := fun t h1 h2 =>
    ⟨by rw [h1]; exact h.1, by rw [h2]; exact h.2⟩
  unfold dispatchAttr
  split_ifs <;> try (apply hca _ rfl rfl)
  · -- message-level MAPI_PROPS: only message fields are rewritten
    apply hca _ ?_ ?_ <;> (dsimp only; split_ifs <;> rfl)
  · -- REND_DATA: flush the open accumulator, open a fresh empty one
    cases hcur : s.currentAttachment with
    | none =>
      refine ⟨h.1, fun a ha => ?_⟩
      obtain rfl : ({} : RawAttachment) = a := by injection ha
      intro bs hbs
      cases hbs
    | some c =>
      refine ⟨fun a ha => ?_, fun a ha => ?_⟩
      · rcases List.mem_append.1 ha with hmem | hmem
        · exact h.1 a hmem
        · rw [List.mem_singleton.1 hmem]
          exact h.2 c hcur
      · obtain rfl : ({} : RawAttachment) = a := by injection ha
        intro bs hbs
        cases hbs
  · -- TITLE: only the legacy name changes
    cases hcur : s.currentAttachment with
    | none => exact h
    | some c =>
      refine ⟨h.1, fun a ha => ?_⟩
      obtain rfl : { c with legacyName := TnefDecoder.decodeAnsiString pd } = a := by
        injection ha
      exact fun bs hbs => h.2 c hcur bs hbs
  · -- DATA: payload and size are set together
    cases hcur : s.currentAttachment with
    | none => exact h
    | some c =>
      refine ⟨h.1, fun a ha => ?_⟩
      obtain rfl : { c with data := some pd, size := pd.length } = a := by injection ha
      intro bs hbs
      obtain rfl : pd = bs := by injection hbs
      rfl
  · -- attachment MAPI_PROPS: a MAPI payload overrides data and size together
    cases hcur : s.currentAttachment with
    | none => exact h
    | some c =>
      dsimp only
      cases hd : (parseAttachMapiProps pd s.ansiEncoding).data with
      | some bs0 =>
        refine ⟨h.1, fun a ha => ?_⟩
        dsimp only at ha
        obtain rfl := Option.some.inj ha
        intro bs hbs
        obtain rfl : bs0 = bs := by injection hbs
        rfl
      | none =>
        refine ⟨h.1, fun a ha => ?_⟩
        dsimp only at ha
        obtain rfl := Option.some.inj ha
        intro bs hbs
        split_ifs at hbs ⊢ <;> exact h.2 c hcur bs hbs

/-- The attribute loop preserves the size/data coupling. -/
theorem parseLoop_inv (fuel : Nat) : ∀ (d : TnefDecoder) (s s' : ParseState),
    stateInv s → parseLoop fuel d s = .ok s' → stateInv s' := by
  induction fuel with
  | zero =>
    intro d s s' hs heq
    injection heq with h
    exact h ▸ hs
  | succ n ih =>
    intro d s s' hs heq
    by_cases h9 : d.remaining < 9
    · rw [parseLoop_break _ _ _ h9] at heq
      injection heq with h
      exact h ▸ hs
    · by_cases hL : (leU32At d.data (d.pos + 5) : Int) > d.remaining - 9
      · rw [parseLoop_truncate _ _ _ h9 hL] at heq
        injection heq with h
        exact h ▸ hs
      · rw [parseLoop_advance n d s h9 (by omega)] at heq
        exact ih _ _ _ (dispatchAttr_inv _ _ _ _ hs) heq

/-- Final assembly keeps the sizes: every emitted attachment of a list of
coupled accumulators has its data length as its size. -/
theorem finalize_sizes (l : List RawAttachment) (hl : ∀ a ∈ l, RAinv a) :
    ∀ t ∈ finalizeAttachments l, t.size = t.data.length := by
  intro t ht
  unfold finalizeAttachments at ht
  rcases List.mem_map.1 ht with ⟨a, hmem, rfl⟩
  have hfil := List.mem_filter.1 hmem
  have hsome : a.data.isSome := by
    have := hfil.2
    simp only [decide_eq_true_eq] at this
    exact this.1
  cases hda : a.data with
  | none => rw [hda] at hsome; cases hsome
  | some bs =>
    have hsz := hl a hfil.1 bs hda
    unfold finalizeAttachment
    dsimp only
    rw [hda]
    simpa using hsz

/-- General override shape of the message-level MAPI_PROPS dispatch: a
truthy decoded subject overwrites whatever subject the state holds. -/
theorem mapi_subject_overrides (s : ParseState) (attrData : Bytes)
    (h : strTruthy (parseMapiProps attrData s.ansiEncoding).subject = true) :
    (dispatchAttr LVL_MESSAGE ATTR.MAPI_PROPS attrData s).subject =
      (parseMapiProps attrData s.ansiEncoding).subject.getD "" := by
  unfold dispatchAttr
  rw [if_pos rfl]
  rw [if_neg (by decide), if_neg (by decide), if_neg (by decide), if_neg (by decide),
      if_pos rfl]
  dsimp only
  rw [if_pos h]
  split_ifs <;> rfl

/-- Claim C10: for every attachment in the returned result list, the size
field equals the byte length of that attachment's data field; size is only
ever set together with data, whether the data came from the legacy DATA
attribute or from a MAPI ATTACH_DATA_BIN property that overrode it. -/
theorem parseTnef_sizes : ∀ (data : Bytes) (r : TnefParseResult),
    parseTnef data = .ok r → ∀ t ∈ r.attachments, t.size = t.data.length := by
  intro data r heq t ht
  unfold parseTnef at heq
  cases h1 : (TnefDecoder.mk data 0).readUint32LE with
  | error e => rw [h1] at heq; cases heq
  | ok p =>
    rw [h1] at heq
    obtain ⟨sig, d1⟩ := p
    dsimp only at heq
    by_cases hsig : sig ≠ TNEF_SIGNATURE
    · rw [if_pos hsig] at heq; cases heq
    · rw [if_neg hsig] at heq
      cases h2 : d1.readUint16LE with
      | error e => rw [h2] at heq; cases heq
      | ok q =>
        rw [h2] at heq
        obtain ⟨k, d2⟩ := q
        dsimp only at heq
        cases h3 : parseLoop (data.length + 1) d2 {} with
        | error e => rw [h3] at heq; cases heq
        | ok st =>
          rw [h3] at heq
          dsimp only at heq
          have hinv : stateInv st :=
            parseLoop_inv _ _ _ _
              ⟨fun a ha => absurd ha (List.not_mem_nil a), fun a ha => by cases ha⟩ h3
          obtain rfl := Except.ok.inj heq.symm
          apply finalize_sizes _ ?_ t ht
          cases hcur : st.currentAttachment with
          | none => exact fun a ha => hinv.1 a ha
          | some c =>
            intro a ha
            rcases List.mem_append.1 ha with hmem | hmem
            · exact hinv.1 a hmem
            · rw [List.mem_singleton.1 hmem]
              exact hinv.2 c hcur

/-- Witness for claim C10 at a concrete buffer with one attachment. -/
theorem parseTnef_sizes_witness :
    ({ name := "attachment", size := 2, data := [1, 2],
       mimeType := "application/octet-stream" } : TnefAttachment).size =
      ({ name := "attachment", size := 2, data := [1, 2],
         mimeType := "application/octet-stream" } : TnefAttachment).data.length :=
  parseTnef_sizes oneAttachBuf
    { subject := "", fromField := "", body := "", bodyHtml := "",
      attachments :=
        [{ name := "attachment", size := 2, data := [1, 2],
           mimeType := "application/octet-stream" }] }
    (by decide) _ (by decide)

/-- Claim C2 (corrected): the fatal behaviour of `parseTnef`.  Buffers too
short for the 4-byte signature fail with the UnexpectedEnd error; buffers
of at least 4 bytes whose first 4 bytes are not the little-endian magic
0x223e9f78 fail with the distinct "not a recognized container" error and
produce no partial result; buffers that begin with the magic but are
shorter than the 6 bytes of signature plus legacy key also raise
UnexpectedEnd; and every buffer of at least 6 bytes that begins with the
magic never raises — truncated attributes, malformed MAPI encodings and
unknown tags are absorbed and a best-effort result is returned. -/
theorem parseTnef_fatal_model :
    (∀ data : Bytes, data.length < 4 → parseTnef data = .error .unexpectedEnd) ∧
    (∀ data : Bytes, 4 ≤ data.length → leU32At data 0 ≠ TNEF_SIGNATURE →
      parseTnef data = .error .notValidTnef) ∧
    (∀ data : Bytes, 4 ≤ data.length → data.length < 6 → leU32At data 0 = TNEF_SIGNATURE →
      parseTnef data = .error .unexpectedEnd) ∧
    (∀ data : Bytes, 6 ≤ data.length → leU32At data 0 = TNEF_SIGNATURE →
      ∃ r, parseTnef data = .ok r) := by
  refine ⟨?_, ?_, ?_, ?_⟩
  · intro data hlen
    unfold parseTnef
    rw [readUint32LE_err (d := ⟨data, 0⟩) (by show data.length < 0 + 4; omega)]
  · intro data hlen hsig
    unfold parseTnef
    rw [readUint32LE_eq (d := ⟨data, 0⟩) (by show 0 + 4 ≤ data.length; omega)]
    dsimp only
    rw [if_pos hsig]
  · intro data hlen4 hlen6 hsig
    unfold parseTnef
    rw [readUint32LE_eq (d := ⟨data, 0⟩) (by show 0 + 4 ≤ data.length; omega)]
    dsimp only
    rw [if_neg (not_not_intro hsig)]
    rw [readUint16LE_err (d := ⟨data, 0 + 4⟩) (by show data.length < 0 + 4 + 2; omega)]
  · intro data hlen hsig
    unfold parseTnef
    rw [readUint32LE_eq (d := ⟨data, 0⟩) (by show 0 + 4 ≤ data.length; omega)]
    dsimp only
    rw [if_neg (not_not_intro hsig)]
    rw [readUint16LE_eq (d := ⟨data, 0 + 4⟩) (by show 0 + 4 + 2 ≤ data.length; omega)]
    dsimp only
    obtain ⟨s', hs'⟩ := parseLoop_ok (data.length + 1) ⟨data, 0 + 4 + 2⟩ {}
    rw [hs']
    exact ⟨_, rfl⟩

/-- Counterexample for claim C2 as stated: the 4-byte buffer that consists
of exactly the magic does begin with the magic, yet `parseTnef` raises
(the legacy-key read runs out of bytes), so "for every input buffer that
does begin with the magic, parseTnef never raises" is false. -/
theorem magic_prefixed_buffer_raises :
    leU32At [0x78, 0x9f, 0x3e, 0x22] 0 = TNEF_SIGNATURE ∧
    parseTnef [0x78, 0x9f, 0x3e, 0x22] = .error .unexpectedEnd := by decide

/-- Witness for claim C2 instantiating all four cases. -/
theorem parseTnef_fatal_model_witness :
    parseTnef [0, 0, 0] = .error .unexpectedEnd ∧
    parseTnef [0, 0, 0, 0, 0, 0] = .error .notValidTnef ∧
    parseTnef [0x78, 0x9f, 0x3e, 0x22, 0] = .error .unexpectedEnd ∧
    ∃ r, parseTnef sigKeyBytes = .ok r :=
  ⟨parseTnef_fatal_model.1 _ (by decide),
   parseTnef_fatal_model.2.1 _ (by decide) (by decide),
   parseTnef_fatal_model.2.2.1 _ (by decide) (by decide) (by decide),
   parseTnef_fatal_model.2.2.2 _ (by decide) (by decide)⟩

/-- Claim C7: every fixed-width read and `readBytes n` fails with the
UnexpectedEnd condition exactly when fewer than the requested bytes
remain, `skip` never fails and clamps the offset to the buffer end, and
after every operation the offset never exceeds the buffer length. -/
theorem cursor_props :
    (∀ d : TnefDecoder, d.readUint8 = .error .unexpectedEnd ↔ d.remaining < 1) ∧
    (∀ d : TnefDecoder, d.readUint16LE = .error .unexpectedEnd ↔ d.remaining < 2) ∧
    (∀ d : TnefDecoder, d.readUint32LE = .error .unexpectedEnd ↔ d.remaining < 4) ∧
    (∀ (d : TnefDecoder) (n : Nat), d.readBytes n = .error .unexpectedEnd ↔ d.remaining < n) ∧
    (∀ (d : TnefDecoder) (n : Nat), (d.skip n).pos = min (d.pos + n) d.data.length) ∧
    (∀ (d : TnefDecoder) (n : Nat), (d.skip n).pos ≤ d.data.length) ∧
    (∀ d : TnefDecoder, match d.readUint8 with
      | .ok (_, d') => d'.pos ≤ d'.data.length
      | .error _ => True) ∧
    (∀ d : TnefDecoder, match d.readUint16LE with
      | .ok (_, d') => d'.pos ≤ d'.data.length
      | .error _ => True) ∧
    (∀ d : TnefDecoder, match d.readUint32LE with
      | .ok (_, d') => d'.pos ≤ d'.data.length
      | .error _ => True) ∧
    (∀ (d : TnefDecoder) (n : Nat), match d.readBytes n with
      | .ok (_, d') => d'.pos ≤ d'.data.length
      | .error _ => True) := by
  refine ⟨?_, ?_, ?_, ?_, ?_, ?_, ?_, ?_, ?_, ?_⟩
  · intro d
    unfold TnefDecoder.readUint8 TnefDecoder.remaining
    split_ifs with h <;> simp <;> omega
  · intro d
    unfold TnefDecoder.readUint16LE TnefDecoder.remaining
    split_ifs with h <;> simp <;> omega
  · intro d
    unfold TnefDecoder.readUint32LE TnefDecoder.remaining
    split_ifs with h <;> simp <;> omega
  · intro d n
    unfold TnefDecoder.readBytes TnefDecoder.remaining
    split_ifs with h <;> simp <;> omega
  · intro d n
    rfl
  · intro d n
    show min (d.pos + n) d.data.length ≤ d.data.length
    omega
  · intro d
    unfold TnefDecoder.readUint8
    split_ifs with h
    · trivial
    · show d.pos + 1 ≤ d.data.length
      omega
  · intro d
    unfold TnefDecoder.readUint16LE
    split_ifs with h
    · trivial
    · show d.pos + 2 ≤ d.data.length
      omega
  · intro d
    unfold TnefDecoder.readUint32LE
    split_ifs with h
    · trivial
    · show d.pos + 4 ≤ d.data.length
      omega
  · intro d n
    unfold TnefDecoder.readBytes
    split_ifs with h
    · trivial
    · show d.pos + n ≤ d.data.length
      omega

/-- Claim C6: the attribute-stream loop runs while at least 9 bytes
remain; when the declared payload length exceeds the remaining bytes the
loop stops immediately and returns everything accumulated so far (not a
fatal error); otherwise exactly that many payload bytes are read and a
trailing 2-byte checksum is consumed if and only if at least 2 bytes
remain. -/
theorem attr_loop_props :
    (∀ (fuel : Nat) (d : TnefDecoder) (s : ParseState), d.remaining < 9 →
      parseLoop fuel d s = .ok s) ∧
    (∀ (fuel : Nat) (d : TnefDecoder) (s : ParseState), ¬ d.remaining < 9 →
      (leU32At d.data (d.pos + 5) : Int) > d.remaining - 9 →
      parseLoop (fuel + 1) d s = .ok s) ∧
    (∀ (fuel : Nat) (d : TnefDecoder) (s : ParseState), ¬ d.remaining < 9 →
      (leU32At d.data (d.pos + 5) : Int) ≤ d.remaining - 9 →
      ((d.data.drop (d.pos + 9)).take (leU32At d.data (d.pos + 5))).length =
        leU32At d.data (d.pos + 5) ∧
      parseLoop (fuel + 1) d s =
        parseLoop fuel
          ⟨d.data, d.pos + 9 + leU32At d.data (d.pos + 5) +
            (if (2 : Int) ≤ d.remaining - 9 - (leU32At d.data (d.pos + 5) : Int) then 2 else 0)⟩
          (dispatchAttr (d.data.getD d.pos 0) (leU32At d.data (d.pos + 1) % 65536)
            ((d.data.drop (d.pos + 9)).take (leU32At d.data (d.pos + 5))) s)) := by
  refine ⟨parseLoop_break, parseLoop_truncate,
    fun fuel d s h9 hL => ⟨?_, parseLoop_advance fuel d s h9 hL⟩⟩
  have hr : d.remaining = (d.data.length : Int) - (d.pos : Int) := rfl
  rw [List.length_take, List.length_drop]
  omega

/-- Witness for claim C6: the three loop behaviours at concrete decoder
states (a 3-byte tail, a 9-byte header declaring an oversized payload, and
a complete 12-byte attribute with checksum). -/
theorem attr_loop_props_witness :
    parseLoop 3 ⟨[1, 2, 3], 0⟩ {} = .ok {} ∧
    parseLoop 1 ⟨[0, 1, 0, 0, 0, 255, 255, 255, 255], 0⟩ {} = .ok {} ∧
    ((([1, 4, 0x80, 0, 0, 1, 0, 0, 0, 72, 0, 0] : Bytes).drop 9).take 1).length = 1 ∧
    parseLoop 2 ⟨[1, 4, 0x80, 0, 0, 1, 0, 0, 0, 72, 0, 0], 0⟩ {} =
      parseLoop 1 ⟨[1, 4, 0x80, 0, 0, 1, 0, 0, 0, 72, 0, 0], 12⟩
        (dispatchAttr 1 0x8004 [72] {}) :=
  ⟨attr_loop_props.1 3 ⟨[1, 2, 3], 0⟩ {} (by decide),
   attr_loop_props.2.1 0 ⟨[0, 1, 0, 0, 0, 255, 255, 255, 255], 0⟩ {} (by decide) (by decide),
   (attr_loop_props.2.2 1 ⟨[1, 4, 0x80, 0, 0, 1, 0, 0, 0, 72, 0, 0], 0⟩ {}
     (by decide) (by decide)).1,
   (attr_loop_props.2.2 1 ⟨[1, 4, 0x80, 0, 0, 1, 0, 0, 0, 72, 0, 0], 0⟩ {}
     (by decide) (by decide)).2⟩

/-- Claim C8 (corrected): `pad4` is idempotent for every non-negative
integer, but `pad4(n) - n ∈ [0, 3]` holds only up to `2^31 - 4`; beyond
that the JS 32-bit bitwise arithmetic wraps. -/
theorem pad4_props :
    (∀ n : Nat, pad4 (pad4 n) = pad4 n) ∧
    (∀ n : Nat, (n : Int) ≤ 2147483644 → 0 ≤ pad4 n - n ∧ pad4 n - n ≤ 3) := by
  constructor
  · intro n
    simp only [pad4, toInt32]
    omega
  · intro n h
    simp only [pad4, toInt32]
    omega

/-- Counterexample for claim C8 as stated: at `n = 2^31 - 2` the JS
expression `(n + 3) & ~3` wraps to `-2^31`, so `pad4 n - n` is negative
rather than in `[0, 3]`. -/
theorem pad4_wraps_int32 :
    pad4 2147483646 = -2147483648 ∧ ¬ (0 ≤ pad4 2147483646 - 2147483646) := by decide

/-- Witness for claim C8 at `n = 5`. -/
theorem pad4_props_witness :
    pad4 (pad4 5) = pad4 5 ∧ (0 ≤ pad4 5 - 5 ∧ pad4 5 - 5 ≤ 3) :=
  ⟨pad4_props.1 5, pad4_props.2 5 (by decide)⟩

/-- Claim C1 (code bug): the encoding resolved from the OEM-codepage
attribute is never consumed by the legacy-ANSI decodes.  On a parse whose
OEM-codepage attribute is 932 (resolving to shift_jis), the SUBJECT
payload [0x83, 0x41] is still decoded with windows-1252 (yielding "ƒA"),
not with the resolved encoding (real Shift_JIS decodes these bytes to the
single katakana letter ア): `decodeAnsiString` declares a single parameter
and hardcodes windows-1252, while every call site passes `ansiEncoding` as
a second argument that is silently ignored at runtime. -/
theorem ansi_encoding_not_consumed :
    parseTnef cp932SubjectBuf =
      .ok { subject := TnefDecoder.decodeAnsiString [0x83, 0x41], fromField := "", body := "",
            bodyHtml := "", attachments := [] } ∧
    codepageToEncoding 932 = "shift_jis" ∧
    TnefDecoder.decodeAnsiString [0x83, 0x41] ≠
      decodeAnsiSpec [0x83, 0x41] (codepageToEncoding 932) := by decide

/-- Claim C3 (corrected): a truthy MAPI-decoded subject overwrites
whatever subject is already set, and in particular the legacy ANSI
SUBJECT "Hi" followed by a MAPI_PROPS subject "Hello" yields "Hello";
however the protection is stream-ordered only (see the counterexample for
the reverse order). -/
theorem mapi_overrides_legacy_subject :
    parseTnef legacyThenMapiBuf =
      .ok { subject := "Hello", fromField := "", body := "", bodyHtml := "",
            attachments := [] } ∧
    ∀ (s : ParseState) (attrData : Bytes),
      strTruthy (parseMapiProps attrData s.ansiEncoding).subject = true →
      (dispatchAttr LVL_MESSAGE ATTR.MAPI_PROPS attrData s).subject =
        (parseMapiProps attrData s.ansiEncoding).subject.getD "" :=
  ⟨by decide, mapi_subject_overrides⟩

/-- Counterexample for claim C3 as stated: with the MAPI_PROPS subject
"Hello" first and the legacy ANSI SUBJECT "Hi" after it, the final subject
is "Hi" — the legacy ANSI field did override the previously set
MAPI-sourced value (the same MAPI attribute alone yields "Hello"). -/
theorem legacy_overrides_mapi_subject :
    (parseTnef mapiThenLegacyBuf).toOption.map TnefParseResult.subject = some "Hi" ∧
    (parseTnef mapiOnlyBuf).toOption.map TnefParseResult.subject = some "Hello" := by decide

/-- Witness for claim C3: the override at a concrete state and block. -/
theorem mapi_overrides_legacy_subject_witness :
    (dispatchAttr LVL_MESSAGE ATTR.MAPI_PROPS helloSubjectProp
        { subject := "Hi" }).subject =
      (parseMapiProps helloSubjectProp "shift_jis").subject.getD "" :=
  mapi_overrides_legacy_subject.2 { subject := "Hi" } helloSubjectProp (by decide)

/-- Claim C4: the attachment scenario REND_DATA, TITLE="legacy.txt",
DATA=(5 bytes), REND_DATA, DATA=(3 bytes) produces exactly two attachments
in order, {name "legacy.txt", size 5} and {name "attachment", size 3}; and
name resolution always follows the fixed priority long filename > short
filename > display name > legacy title > literal fallback "attachment"
(empty fields are skipped, the first non-empty wins). -/
theorem attachment_name_priority :
    parseTnef twoAttachBuf =
      .ok { subject := "", fromField := "", body := "", bodyHtml := "",
            attachments :=
              [{ name := "legacy.txt", size := 5, data := [1, 2, 3, 4, 5],
                 mimeType := "text/plain" },
               { name := "attachment", size := 3, data := [9, 9, 9],
                 mimeType := "application/octet-stream" }] } ∧
    ∀ a : RawAttachment,
      ((finalizeAttachment a).name = resolveName a) ∧
      (a.mapiLongFilename ≠ "" → resolveName a = a.mapiLongFilename) ∧
      (a.mapiLongFilename = "" → a.mapiFilename ≠ "" → resolveName a = a.mapiFilename) ∧
      (a.mapiLongFilename = "" → a.mapiFilename = "" → a.mapiDisplayName ≠ "" →
        resolveName a = a.mapiDisplayName) ∧
      (a.mapiLongFilename = "" → a.mapiFilename = "" → a.mapiDisplayName = "" →
        a.legacyName ≠ "" → resolveName a = a.legacyName) ∧
      (a.mapiLongFilename = "" → a.mapiFilename = "" → a.mapiDisplayName = "" →
        a.legacyName = "" → resolveName a = "attachment") := by
  constructor
  · decide
  · intro a
    refine ⟨rfl, ?_, ?_, ?_, ?_, ?_⟩ <;>
      (intros
       unfold resolveName jsOr
       split_ifs <;> first | rfl | contradiction)

/-- Witness for claim C4: the priority at two concrete accumulators. -/
theorem attachment_name_priority_witness :
    resolveName { mapiLongFilename := "x", legacyName := "y" } = "x" ∧
    resolveName ({} : RawAttachment) = "attachment" :=
  ⟨(attachment_name_priority.2 _).2.1 (by decide),
   (attachment_name_priority.2 _).2.2.2.2.2 rfl rfl rfl rfl⟩

/-- Claim C5: a STRING8 property declaring a value count other than 1
yields no value (`readPropValue` returns `none`) and does not overwrite
any message field — the property loop returns the accumulated result
unchanged, stopping the block early and keeping only the fields already
resolved, exactly the conservative policy the spec describes (the code
never proceeds past such a property). -/
theorem string8_multivalue_absorbed (enc : String) (n : Nat) (d : TnefDecoder) (r : MapiResult)
    (h4 : (4 : Int) < d.remaining)
    (ht : leU16At d.data d.pos = PT.STRING8)
    (hid : leU16At d.data (d.pos + 2) < 0x8000)
    (hcount : d.data.length < d.pos + 8 ∨ leU32At d.data (d.pos + 4) ≠ 1) :
    (readPropValue ⟨d.data, d.pos + 4⟩ PT.STRING8 enc).1 = none ∧
    mapiPropsLoop enc (n + 1) d r = r := by
  have h4' : (4 : Int) < (d.data.length : Int) - (d.pos : Int) := h4
  have h1 : (readPropValue ⟨d.data, d.pos + 4⟩ PT.STRING8 enc).1 = none := by
    unfold readPropValue
    rw [if_neg (by decide), if_neg (by decide), if_neg (by decide), if_pos rfl]
    by_cases hlen8 : d.data.length < d.pos + 8
    · rw [readUint32LE_err (d := ⟨d.data, d.pos + 4⟩)
        (by show d.data.length < d.pos + 4 + 4; omega)]
    · have hne : leU32At d.data (d.pos + 4) ≠ 1 := hcount.resolve_left hlen8
      rw [readUint32LE_eq (d := ⟨d.data, d.pos + 4⟩)
        (by show d.pos + 4 + 4 ≤ d.data.length; omega)]
      dsimp only
      rw [if_pos hne]
  refine ⟨h1, ?_⟩
  simp only [mapiPropsLoop]
  rw [if_pos h4]
  rw [readUint16LE_eq (by omega)]
  dsimp only
  rw [ht]
  rw [readUint16LE_eq (d := ⟨d.data, d.pos + 2⟩) (by show d.pos + 2 + 2 ≤ d.data.length; omega)]
  dsimp only
  rw [show d.pos + 2 + 2 = d.pos + 4 from rfl]
  rw [if_neg (show ¬ (0x8000 ≤ leU16At d.data (d.pos + 2)) by omega)]
  dsimp only
  have hp : readPropValue ⟨d.data, d.pos + 4⟩ PT.STRING8 enc =
      (none, (readPropValue ⟨d.data, d.pos + 4⟩ PT.STRING8 enc).2) := by
    rw [← h1]
  rw [hp]

/-- Witness for claim C5: a STRING8 subject property with count 2 leaves a
previously resolved subject untouched and stops the block. -/
theorem string8_multivalue_absorbed_witness :
    (readPropValue ⟨[0x1E, 0x00, 0x37, 0x00, 2, 0, 0, 0, 1, 2, 3], 4⟩
        PT.STRING8 "shift_jis").1 = none ∧
    mapiPropsLoop "shift_jis" 1 ⟨[0x1E, 0x00, 0x37, 0x00, 2, 0, 0, 0, 1, 2, 3], 0⟩
        { subject := some "kept" } = { subject := some "kept" } :=
  string8_multivalue_absorbed "shift_jis" 0
    ⟨[0x1E, 0x00, 0x37, 0x00, 2, 0, 0, 0, 1, 2, 3], 0⟩ { subject := some "kept" }
    (by decide) (by decide) (by decide) (by decide)

/-- Claim C9: an attachment whose MIME type is still the generic default
gets its final type inferred from the lowercase extension (of the explicit
extension field when set, otherwise of the resolved name) via the fixed
table, unknown extensions keep the default; in particular a MAPI long
filename "report.pdf" with no explicit MIME tag resolves to
"application/pdf". -/
theorem mime_inference :
    parseTnef reportPdfBuf =
      .ok { subject := "", fromField := "", body := "", bodyHtml := "",
            attachments :=
              [{ name := "report.pdf", size := 3, data := [1, 2, 3],
                 mimeType := "application/pdf" }] } ∧
    (∀ a : RawAttachment,
      (a.mimeType = "application/octet-stream" →
        (finalizeAttachment a).mimeType = guessMimeType (resolveName a) a.extension) ∧
      (a.mimeType ≠ "application/octet-stream" →
        (finalizeAttachment a).mimeType = a.mimeType)) ∧
    guessMimeType "A.PDF" "" = "application/pdf" ∧
    guessMimeType "file.xyz" "" = "application/octet-stream" := by
  refine ⟨by decide, fun a => ?_, by decide, by decide⟩
  unfold finalizeAttachment
  constructor <;> intro h <;> dsimp only <;> split_ifs <;> first | rfl | contradiction

/-- Witness for claim C9: the inference at a concrete accumulator with the
default MIME type and long filename "report.pdf". -/
theorem mime_inference_witness :
    (finalizeAttachment { mapiLongFilename := "report.pdf" }).mimeType =
      guessMimeType (resolveName { mapiLongFilename := "report.pdf" }) "" :=
  (mime_inference.2.1 { mapiLongFilename := "report.pdf" }).1 (by decide)

end Tnef
